import Mathlib

/-!
Verification of the ReAct agent loop in `src/main.py` (with `src/callbacks.py`).

Python strings are modelled as `List Char`; Python `str.strip` is modelled by
`pyStrip`/`pyStripChars`; the single registered tool `get_text_length`, the
registry lookup `find_tool_by_name`, the scratchpad formatter
`format_log_to_str` and the `__main__` while loop are embedded below.  The
LLM call is modelled as an external oracle from the current transcript to a
parsed step, and the third-party output parser (`ReActSingleInputOutputParser`,
whose code is not part of this repository) is modelled from the spec.
-/

namespace ReactAgent

/-- Python strings, modelled as lists of characters. -/
abbrev Str := List Char

/-- Python `str.strip` generalised to a character predicate `p`: remove the
characters satisfying `p` from both ends of the string. -/
def pyStrip (p : Char → Bool) (s : Str) : Str :=
  ((s.dropWhile p).reverse.dropWhile p).reverse

/-- Python `str.strip(cs)` for the explicit character set `cs`. -/
def pyStripChars (cs : List Char) (s : Str) : Str :=
  pyStrip (fun c => decide (c ∈ cs)) s

/-- Embedding of `get_text_length` (src/main.py lines 15-20):
`text = text.strip("\n").strip('"'); return len(text)`.
The `print` on entry does not affect the returned value.  Python `len`
returns a non-negative int, modelled as `Nat`. -/
def get_text_length (text : Str) : Nat :=
  (pyStripChars ['"'] (pyStripChars ['\n'] text)).length

/-- A registered tool (langchain `Tool` as used by this program): a name, a
description, and the wrapped function `func`.  The one tool of this program,
`get_text_length`, maps a string to an int, so `func : Str → Nat`. -/
structure Tool where
  name : Str
  description : Str
  func : Str → Nat

/-- The value `find_tool_by_name` hands back to its caller: either a `Tool`,
or — on the fallthrough `return ValueError(...)` of line 27 — a `ValueError`
object (returned, not raised). -/
inductive ToolOrError where
  | tool (t : Tool)
  | valueError (msg : Str)

/-- Embedding of `find_tool_by_name` (src/main.py lines 23-27): scan the list
in order; on a name match return the tool; otherwise fall through to
`return ValueError(f"Tool with name {name} not found")` — a returned value,
not a raised exception. -/
def find_tool_by_name (name : Str) (tools : List Tool) : ToolOrError :=
  match tools with
  | [] => .valueError ("Tool with name ".toList ++ name ++ " not found".toList)
  | t :: rest => if t.name = name then .tool t else find_tool_by_name name rest

/-- The registered `get_text_length` tool (`tools = [get_text_length]`,
src/main.py line 44), with the name and docstring the `@tool` decorator takes
from the function. -/
def get_text_length_tool : Tool :=
  { name := "get_text_length".toList
    description := "Returns the length of a text by characters".toList
    func := get_text_length }

/-- A langchain `AgentAction` as produced by the output parser: the requested
tool name, the tool input, and the raw rationale text `log`. -/
structure AgentAction where
  tool : Str
  tool_input : Str
  log : Str
deriving DecidableEq

/-- Embedding of `format_log_to_str` (src/main.py lines 29-40): a `for` loop
accumulating `thought += action.log; thought += f"..."`, i.e. a left fold.
The source's keyword parameters `observation_prefix` / `llm_prefix` are the
binders `obsMark` / `llmMark` here. -/
def format_log_to_str (intermediate_steps : List (AgentAction × Str))
    (obsMark llmMark : Str) : Str :=
  intermediate_steps.foldl
    (fun thought p => thought ++ p.1.log ++ obsMark ++ p.2 ++ ['\n'] ++ llmMark)
    []

/-- A parsed step: the langchain output parser yields either an `AgentAction`
or an `AgentFinish`; the spec models this as the tagged union
`Step = Action | Finish{result_text}`. -/
inductive AgentStep where
  | action (a : AgentAction)
  | finish (result_text : Str)
deriving DecidableEq

/-- `leadsWith marker s` holds when `s` starts with `marker` (Python
`s.startswith(marker)`). -/
def leadsWith : Str → Str → Bool
  | [], _ => true
  | _ :: _, [] => false
  | m :: ms, c :: cs => (m == c) && leadsWith ms cs

/-- Split `s` at the first occurrence of `marker`: `some (before, after)`
when the marker occurs, `none` otherwise. -/
def splitFirst (marker : Str) : Str → Option (Str × Str)
  | [] => none
  | c :: rest =>
    if leadsWith marker (c :: rest) then some ([], (c :: rest).drop marker.length)
    else (splitFirst marker rest).map (fun p => (c :: p.1, p.2))

/-- Python `str.strip()` with no argument: strip surrounding whitespace. -/
def pyStripWs : Str → Str := pyStrip Char.isWhitespace

/-- The current line: everything up to (excluding) the first newline. -/
def takeLine (s : Str) : Str := s.takeWhile (fun c => c != '\n')

/-- The `"Final Answer:"` marker of the ReAct wire format. -/
def FINAL_ANSWER_MARK : Str := "Final Answer:".toList

/-- The `"Action:"` marker of the ReAct wire format. -/
def ACTION_MARK : Str := "Action:".toList

/-- The `"Action Input:"` marker of the ReAct wire format. -/
def ACTION_INPUT_MARK : Str := "Action Input:".toList

/-- Modelled from the spec: the step parser (`ReActSingleInputOutputParser`,
a third-party langchain class whose source is not in this repository, used at
src/main.py line 82).  Spec 4.3: if the text contains a recognizable
`"Final Answer:"` marker, produce `Finish{result_text = text following
marker}` (surrounding whitespace stripped, so that parsing a text containing
`"Final Answer: 42"` yields `Finish{result_text="42"}` as in spec section 8);
else extract the `"Action: <tool_name>"` and `"Action Input: <input>"` lines
into `Action{tool_name, tool_input, rationale_text = text up to and including
the Action Input line}`; else fail with a ParseError. -/
def parseReActOutput (text : Str) : Except Str AgentStep :=
  match splitFirst FINAL_ANSWER_MARK text with
  | some (_, rest) => .ok (.finish (pyStripWs rest))
  | none =>
    match splitFirst ACTION_MARK text with
    | none => .error ("ParseError: could not parse LLM output".toList)
    | some (_, afterAction) =>
      match splitFirst ACTION_INPUT_MARK afterAction with
      | none => .error ("ParseError: could not parse LLM output".toList)
      | some (_, afterInput) =>
        .ok (.action
          { tool := pyStripWs (takeLine afterAction)
            tool_input := pyStripWs (takeLine afterInput)
            log := text.take
              (text.length - (afterInput.dropWhile (fun c => c != '\n')).length) })

/-- A transcript entry (src/main.py line 109): the `AgentAction` paired with
the stringified observation. -/
abbrev Entry := AgentAction × Str

/-- Python `str()` on a value that is already a `str` returns it unchanged
(line 107, `str(tool_input)`). -/
def pyStrOfStr (s : Str) : Str := s

/-- Python `str()` on a non-negative int (line 109, `str(observation)` where
the observation is the int returned by `get_text_length`). -/
def pyStrOfNat (n : Nat) : Str := (Nat.repr n).toList

/-- One iteration of the `__main__` while loop (src/main.py lines 89-109),
after the agent chain `prompt | llm | parser` — modelled as the external
`oracle` from the current transcript to a parsed step — has produced
`agent_step`.  A `Finish` step makes the `while` condition false: the loop
terminates with the transcript unchanged (`Sum.inr (transcript, result)`).
An `Action` step looks the tool up, calls `tool.func(str(tool_input))`, and
appends `(agent_step, str(observation))` (`Sum.inl` = keep running).  When
`find_tool_by_name` hands back its `ValueError` object, the attribute access
`tool.func` raises `AttributeError`, modelled as `Except.error`. -/
def loopIter (tools : List Tool) (oracle : List Entry → AgentStep)
    (steps : List Entry) : Except Str (List Entry ⊕ (List Entry × Str)) :=
  match oracle steps with
  | .finish r => .ok (.inr (steps, r))
  | .action a =>
    match find_tool_by_name a.tool tools with
    | .tool t =>
      .ok (.inl (steps ++ [(a, pyStrOfNat (t.func (pyStrOfStr a.tool_input)))]))
    | .valueError _ =>
      .error ("AttributeError: the ValueError returned by find_tool_by_name has no attribute func".toList)

/-- The whole while loop, driven with `fuel` as an upper bound on the number
of iterations (the source has no iteration cap; `none` in the result means
fuel ran out while the loop was still running). -/
def runLoop (tools : List Tool) (oracle : List Entry → AgentStep) :
    Nat → List Entry → Except Str (List Entry × Option Str)
  | 0, steps => .ok (steps, none)
  | fuel + 1, steps =>
    match loopIter tools oracle steps with
    | .error e => .error e
    | .ok (.inr (ts, r)) => .ok (ts, some r)
    | .ok (.inl ts) => runLoop tools oracle fuel ts

/-- The scratchpad contract in the spec's own words (section 4.2): the
concatenation, in transcript order, of each entry's rationale text followed
by `"Observation: " + observation + "\n" + "Thought: "`. -/
def format_scratchpad_spec (steps : List Entry) : Str :=
  (steps.map
    (fun p => p.1.log ++ "Observation: ".toList ++ p.2 ++ ['\n'] ++ "Thought: ".toList)).flatten

/-! ## Helper lemmas -/

/-- Folding the scratchpad accumulator from `acc` is `acc` followed by the
fold from the empty string. -/
lemma format_foldl_app (obsMark llmMark : Str) (steps : List Entry) (acc : Str) :
    steps.foldl
        (fun thought p => thought ++ p.1.log ++ obsMark ++ p.2 ++ ['\n'] ++ llmMark) acc =
      acc ++ steps.foldl
        (fun thought p => thought ++ p.1.log ++ obsMark ++ p.2 ++ ['\n'] ++ llmMark) [] := by
  induction steps generalizing acc with
  | nil => simp
  | cons e rest ih =>
    simp only [List.foldl_cons]
    rw [ih]
    conv_rhs => rw [ih]
    simp [List.append_assoc]

/-- `format_log_to_str` is the flattened per-entry rendering. -/
lemma format_log_to_str_eq_flatten (obsMark llmMark : Str) (steps : List Entry) :
    format_log_to_str steps obsMark llmMark =
      (steps.map (fun p => p.1.log ++ obsMark ++ p.2 ++ ['\n'] ++ llmMark)).flatten := by
  induction steps with
  | nil => rfl
  | cons e rest ih =>
    simp only [format_log_to_str, List.foldl_cons] at *
    rw [format_foldl_app, ih]
    simp [List.append_assoc]

/-- `dropWhile` is the identity when the head (if any) falsifies the
predicate. -/
lemma dropWhile_eq_self_of_head (p : Char → Bool) (s : Str)
    (h : ∀ c, s.head? = some c → p c = false) : s.dropWhile p = s := by
  cases s with
  | nil => rfl
  | cons a l =>
    have ha := h a rfl
    simp [List.dropWhile_cons, ha]

/-- `pyStrip` is the identity when neither end character satisfies the
predicate. -/
lemma pyStrip_eq_self (p : Char → Bool) (s : Str)
    (h1 : ∀ c, s.head? = some c → p c = false)
    (h2 : ∀ c, s.getLast? = some c → p c = false) : pyStrip p s = s := by
  unfold pyStrip
  rw [dropWhile_eq_self_of_head p s h1]
  rw [dropWhile_eq_self_of_head p s.reverse
    (by intro c hc; apply h2; rwa [List.head?_reverse] at hc)]
  exact List.reverse_reverse s

/-- `leadsWith` decides "starts with". -/
lemma leadsWith_iff (marker : Str) :
    ∀ s : Str, leadsWith marker s = true ↔ ∃ t, s = marker ++ t := by
  induction marker with
  | nil =>
    intro s
    simp [leadsWith]
  | cons m ms ih =>
    intro s
    cases s with
    | nil =>
      simp [leadsWith]
    | cons c cs =>
      simp only [leadsWith, Bool.and_eq_true, beq_iff_eq, ih, List.cons_append]
      constructor
      · rintro ⟨rfl, t, rfl⟩
        exact ⟨t, rfl⟩
      · rintro ⟨t, h⟩
        injection h with h1 h2
        exact ⟨h1.symm, t, h2⟩

/-- When a nonempty `marker` occurs inside `text`, `splitFirst` finds it. -/
lemma splitFirst_isSome_of_occurs (marker : Str) (hm : marker ≠ []) :
    ∀ text : Str, (∃ s t, text = s ++ (marker ++ t)) →
      (splitFirst marker text).isSome := by
  intro text
  induction text with
  | nil =>
    rintro ⟨s, t, h⟩
    exfalso
    rcases List.append_eq_nil.mp h.symm with ⟨-, h2⟩
    exact hm (List.append_eq_nil.mp h2).1
  | cons c rest ih =>
    rintro ⟨s, t, h⟩
    cases hl : leadsWith marker (c :: rest) with
    | true => simp [splitFirst, hl]
    | false =>
      have hrest : (splitFirst marker rest).isSome := by
        apply ih
        cases s with
        | nil =>
          exfalso
          rw [(leadsWith_iff marker (c :: rest)).mpr ⟨t, by simpa using h⟩] at hl
          cases hl
        | cons x s' =>
          injection h with h1 h2
          exact ⟨s', t, h2⟩
      rcases Option.isSome_iff_exists.mp hrest with ⟨p, hp⟩
      simp [splitFirst, hl, hp]

/-- A terminating `loopIter` leaves the transcript unchanged and comes from a
`finish` step of the oracle. -/
lemma loopIter_inr_eq (tools : List Tool) (oracle : List Entry → AgentStep)
    (steps ts : List Entry) (r : Str)
    (h : loopIter tools oracle steps = .ok (.inr (ts, r))) :
    ts = steps ∧ oracle steps = .finish r := by
  cases ho : oracle steps with
  | finish r0 =>
    simp only [loopIter, ho] at h
    simp only [Except.ok.injEq, Sum.inr.injEq, Prod.mk.injEq] at h
    exact ⟨h.1.symm, congrArg AgentStep.finish h.2⟩
  | action a =>
    simp only [loopIter, ho] at h
    cases hf : find_tool_by_name a.tool tools <;> rw [hf] at h <;> simp at h

/-- A continuing `loopIter` appends exactly one entry: the action together
with the stringified result of calling the tool on `str(tool_input)`. -/
lemma loopIter_inl_eq (tools : List Tool) (oracle : List Entry → AgentStep)
    (steps ts : List Entry)
    (h : loopIter tools oracle steps = .ok (.inl ts)) :
    ∃ a t, oracle steps = .action a ∧
      find_tool_by_name a.tool tools = .tool t ∧
      ts = steps ++ [(a, pyStrOfNat (t.func (pyStrOfStr a.tool_input)))] := by
  cases ho : oracle steps with
  | finish r0 => simp only [loopIter, ho] at h; simp at h
  | action a =>
    simp only [loopIter, ho] at h
    cases hf : find_tool_by_name a.tool tools with
    | tool t =>
      rw [hf] at h
      simp only [Except.ok.injEq, Sum.inl.injEq] at h
      exact ⟨a, t, rfl, hf, h.symm⟩
    | valueError m => rw [hf] at h; cases h

/-- Whatever the fuel, a normally-returning `runLoop` only ever extends the
transcript it started from. -/
lemma runLoop_extends (tools : List Tool) (oracle : List Entry → AgentStep) :
    ∀ (fuel : Nat) (steps ts : List Entry) (res : Option Str),
      runLoop tools oracle fuel steps = .ok (ts, res) →
        ∃ ext, ts = steps ++ ext := by
  intro fuel
  induction fuel with
  | zero =>
    intro steps ts res h
    simp only [runLoop, Except.ok.injEq, Prod.mk.injEq] at h
    exact ⟨[], by rw [← h.1, List.append_nil]⟩
  | succ n ih =>
    intro steps ts res h
    simp only [runLoop] at h
    cases hit : loopIter tools oracle steps with
    | error e => rw [hit] at h; cases h
    | ok v =>
      rw [hit] at h
      cases v with
      | inr p =>
        simp only [Except.ok.injEq, Prod.mk.injEq] at h
        rcases loopIter_inr_eq tools oracle steps p.1 p.2 (by rw [hit]) with ⟨h1, -⟩
        exact ⟨[], by rw [← h.1, h1, List.append_nil]⟩
      | inl ts0 =>
        rcases loopIter_inl_eq tools oracle steps ts0 hit with ⟨a, t, -, -, hts0⟩
        rcases ih ts0 ts res h with ⟨ext, hext⟩
        exact ⟨[(a, pyStrOfNat (t.func (pyStrOfStr a.tool_input)))] ++ ext,
          by rw [hext, hts0, List.append_assoc]⟩

instance {ε α : Type} [DecidableEq ε] [DecidableEq α] : DecidableEq (Except ε α) :=
  fun a b =>
    match a, b with
    | .error e1, .error e2 => decidable_of_iff (e1 = e2) (by simp)
    | .error _, .ok _ => isFalse (by simp)
    | .ok _, .error _ => isFalse (by simp)
    | .ok v1, .ok v2 => decidable_of_iff (v1 = v2) (by simp)

/-! ## Concrete data for witnesses -/

/-- An oracle (agent chain) whose next parsed step requests the
`get_text_length` tool on the quoted input `"DOG"`. -/
def dogAction : AgentAction :=
  { tool := "get_text_length".toList
    tool_input := "\"DOG\"".toList
    log := "I need the length. Action: get_text_length Action Input: \"DOG\"".toList }

/-- Oracle that always asks for the `dogAction` tool call. -/
def dogOracle : List Entry → AgentStep := fun _ => .action dogAction

/-- Oracle that always finishes with result text `42`. -/
def finishOracle : List Entry → AgentStep := fun _ => .finish ("42".toList)

/-! ## Claims -/

/-- Claim C1: the claim says `find_tool_by_name` fails with a
ToolNotFoundError-style failure for an absent name and never returns a
non-Tool value.  The code instead executes `return ValueError(...)`
(src/main.py line 27): it hands a `ValueError` object back to its caller as
an ordinary return value, contradicting its own `-> Tool` annotation.  This
theorem evaluates the embedded code at the failing input and exhibits the
returned non-Tool value. -/
theorem find_tool_by_name_returns_valueError_object :
    find_tool_by_name ("missing_tool".toList) [get_text_length_tool] =
      .valueError ("Tool with name missing_tool not found".toList) := rfl

/-- Claim C2: on every transcript, `format_log_to_str` (with the source's
default markers `"Observation: "` and `"Thought: "`) returns exactly the
concatenation, in transcript order, of each entry's rationale text followed
by `"Observation: " + observation + "\n" + "Thought: "`. -/
theorem format_log_to_str_eq_concat_spec (steps : List Entry) :
    format_log_to_str steps ("Observation: ".toList) ("Thought: ".toList) =
      format_scratchpad_spec steps :=
  format_log_to_str_eq_flatten ("Observation: ".toList) ("Thought: ".toList) steps

/-- Claim C3: invoking `get_text_length` on the 5-character input `"DOG"`
(double quotes included) returns 3: the quotes are stripped before the
characters are counted. -/
theorem get_text_length_quoted_DOG :
    get_text_length ("\"DOG\"".toList) = 3 := by decide

/-- Claim C4: in every iteration of the `__main__` while loop, a terminating
iteration leaves the transcript unchanged and happens exactly when the parsed
step is a Finish; a continuing iteration appends exactly one entry and only
happens on an Action step; and across an entire run the transcript only ever
grows (the final transcript extends the initial one). -/
theorem loop_transcript_grows_and_finish_terminates
    (tools : List Tool) (oracle : List Entry → AgentStep) (steps : List Entry) :
    (∀ ts r, loopIter tools oracle steps = .ok (.inr (ts, r)) →
        ts = steps ∧ oracle steps = .finish r) ∧
    (∀ r, oracle steps = .finish r →
        loopIter tools oracle steps = .ok (.inr (steps, r))) ∧
    (∀ ts, loopIter tools oracle steps = .ok (.inl ts) →
        (∃ e, ts = steps ++ [e]) ∧ ∃ a, oracle steps = .action a) ∧
    (∀ fuel ts res, runLoop tools oracle fuel steps = .ok (ts, res) →
        ∃ ext, ts = steps ++ ext) := by
  refine ⟨?_, ?_, ?_, ?_⟩
  · intro ts r h
    exact loopIter_inr_eq tools oracle steps ts r h
  · intro r ho
    simp [loopIter, ho]
  · intro ts h
    rcases loopIter_inl_eq tools oracle steps ts h with ⟨a, t, ha, -, hts⟩
    exact ⟨⟨_, hts⟩, ⟨a, ha⟩⟩
  · intro fuel ts res h
    exact runLoop_extends tools oracle fuel steps ts res h

/-- Witness for C4 at a concrete input: with the always-finishing oracle on
the empty transcript, the loop terminates with the transcript unchanged and
the oracle's step is indeed a Finish. -/
theorem loop_transcript_grows_and_finish_terminates_witness :
    ([] : List Entry) = [] ∧ finishOracle [] = .finish ("42".toList) :=
  (loop_transcript_grows_and_finish_terminates [get_text_length_tool]
    finishOracle []).1 [] ("42".toList) rfl

/-- Claim C5: whenever the raw LLM completion text contains the
`"Final Answer:"` marker, the (spec-modelled) step parser produces a Finish
step whose result text is the text following the marker (whitespace
stripped), and it never produces an Action step. -/
theorem parse_final_answer_yields_finish (text : Str)
    (h : ∃ s t, text = s ++ (FINAL_ANSWER_MARK ++ t)) :
    (∃ pre rest, splitFirst FINAL_ANSWER_MARK text = some (pre, rest) ∧
        parseReActOutput text = .ok (.finish (pyStripWs rest))) ∧
    ∀ a, parseReActOutput text ≠ .ok (.action a) := by
  have hs := splitFirst_isSome_of_occurs FINAL_ANSWER_MARK (by decide) text h
  rcases Option.isSome_iff_exists.mp hs with ⟨⟨pre, rest⟩, heq⟩
  refine ⟨⟨pre, rest, heq, ?_⟩, ?_⟩
  · simp [parseReActOutput, heq]
  · intro a hcon
    simp [parseReActOutput, heq] at hcon

/-- Witness for C5 at the concrete completion `"Final Answer: 42"`: the
parser yields `Finish{result_text="42"}` and not an Action. -/
theorem parse_final_answer_yields_finish_witness :
    parseReActOutput ("Final Answer: 42".toList) =
        .ok (.finish ("42".toList)) ∧
      parseReActOutput ("Final Answer: 42".toList) ≠
        .ok (.action ⟨[], [], []⟩) := by
  have h := parse_final_answer_yields_finish ("Final Answer: 42".toList)
    ⟨[], " 42".toList, by decide⟩
  exact ⟨by decide, h.2 ⟨[], [], []⟩⟩

/-- Claim C6: the scratchpad output (with the default markers) is the empty
string exactly when the transcript is empty. -/
theorem format_log_to_str_empty_iff (steps : List Entry) :
    format_log_to_str steps ("Observation: ".toList) ("Thought: ".toList) = [] ↔
      steps = [] := by
  constructor
  · intro h
    cases steps with
    | nil => rfl
    | cons e rest =>
      exfalso
      rw [format_log_to_str_eq_flatten] at h
      have hlen := congrArg List.length h
      simp [List.length_append] at hlen
  · intro h
    rw [h]
    rfl

/-- Claim C7: appending an entry to the transcript never shrinks the
scratchpad: the formatted output of `T ++ [e]` is at least as long as that
of `T`. -/
theorem format_log_to_str_length_mono (steps : List Entry) (e : Entry) :
    (format_log_to_str steps ("Observation: ".toList) ("Thought: ".toList)).length ≤
      (format_log_to_str (steps ++ [e])
        ("Observation: ".toList) ("Thought: ".toList)).length := by
  rw [format_log_to_str_eq_flatten, format_log_to_str_eq_flatten]
  simp [List.length_append]

/-- Claim C8: the scratchpad formatter is deterministic and a pure function
of its arguments (transcript and the two markers): equal arguments give
equal output.  It is embedded as a total function with no other state. -/
theorem format_log_to_str_deterministic
    (steps1 steps2 : List Entry) (obs1 obs2 llm1 llm2 : Str)
    (hT : steps1 = steps2) (hObs : obs1 = obs2) (hLlm : llm1 = llm2) :
    format_log_to_str steps1 obs1 llm1 = format_log_to_str steps2 obs2 llm2 := by
  rw [hT, hObs, hLlm]

/-- Witness for C8 at a concrete transcript: two runs on the same arguments
agree. -/
theorem format_log_to_str_deterministic_witness :
    format_log_to_str [(dogAction, "3".toList)]
        ("Observation: ".toList) ("Thought: ".toList) =
      format_log_to_str [(dogAction, "3".toList)]
        ("Observation: ".toList) ("Thought: ".toList) :=
  format_log_to_str_deterministic [(dogAction, "3".toList)] [(dogAction, "3".toList)]
    ("Observation: ".toList) ("Observation: ".toList)
    ("Thought: ".toList) ("Thought: ".toList) rfl rfl rfl

/-- Claim C9: in every loop iteration whose parsed step is an Action whose
tool name is registered, the tool is invoked on `str(tool_input)` and the
entry appended to the transcript stores `str()` of the tool's return value —
the int the tool returns is stored as its decimal string. -/
theorem loop_action_appends_str_observation
    (tools : List Tool) (oracle : List Entry → AgentStep) (steps : List Entry)
    (a : AgentAction) (t : Tool)
    (h1 : oracle steps = .action a)
    (h2 : find_tool_by_name a.tool tools = .tool t) :
    loopIter tools oracle steps =
      .ok (.inl (steps ++ [(a, pyStrOfNat (t.func (pyStrOfStr a.tool_input)))])) := by
  simp [loopIter, h1, h2]

/-- Witness for C9 at the concrete scenario: the `get_text_length` tool on
the quoted input `"DOG"` returns the int 3, and the transcript stores the
observation as the string `"3"`. -/
theorem loop_action_appends_str_observation_witness :
    loopIter [get_text_length_tool] dogOracle [] =
      .ok (.inl [(dogAction, "3".toList)]) := by
  have h := loop_action_appends_str_observation [get_text_length_tool] dogOracle []
    dogAction get_text_length_tool rfl rfl
  rw [h]
  decide

/-- Claim C10: on every input that neither starts nor ends with a double
quote or a newline, `get_text_length` counts every character: the two strip
passes (newlines first, then quotes) only touch the ends, so the result is
exactly the input's length. -/
theorem get_text_length_no_boundary_chars (text : Str)
    (h1 : text.head? ≠ some '"') (h2 : text.head? ≠ some '\n')
    (h3 : text.getLast? ≠ some '"') (h4 : text.getLast? ≠ some '\n') :
    get_text_length text = text.length := by
  unfold get_text_length pyStripChars
  rw [pyStrip_eq_self _ text ?hn1 ?hn2, pyStrip_eq_self _ text ?hq1 ?hq2]
  case hn1 =>
    intro c hc
    have : c ≠ '\n' := fun he => h2 (he ▸ hc)
    simp [this]
  case hn2 =>
    intro c hc
    have : c ≠ '\n' := fun he => h4 (he ▸ hc)
    simp [this]
  case hq1 =>
    intro c hc
    have : c ≠ '"' := fun he => h1 (he ▸ hc)
    simp [this]
  case hq2 =>
    intro c hc
    have : c ≠ '"' := fun he => h3 (he ▸ hc)
    simp [this]

/-- Witness for C10 at a concrete input with an interior quote and an
interior newline: every one of the 5 characters of `D"O\nG` is counted. -/
theorem get_text_length_no_boundary_chars_witness :
    get_text_length ("D\"O\nG".toList) = ("D\"O\nG".toList).length :=
  get_text_length_no_boundary_chars ("D\"O\nG".toList)
    (by decide) (by decide) (by decide) (by decide)

end ReactAgent
